import Mathlib

/-!
# Verification of the FHIR patient-query library (`dwh/query_lib.py`)

This file gives a shallow embedding of `dwh/query_lib.py` in Lean 4 and
proves/refutes the frozen specification claims about it.

Strings that participate in lexicographic ordering (timestamps, the
synthesized date-value sort keys, values in their string form) are modelled
as `List Char`; identifiers and codes that are only compared for equality
are modelled as `String`.  Spark's `F.min`/`F.max` over string columns and
Python's `min`/`max` over strings both compare lexicographically by code
point, which `strLt` below implements.
-/

namespace QueryLib

/-- `DATE_VALUE_SEPARATOR = '_SeP_'` (query_lib.py line 41). -/
def sepChars : List Char := ['_', 'S', 'e', 'P', '_']

/-- Python's `str(None)`, the string form a `None` value takes inside
`'{}{}{}'.format(d, sep, v)`. -/
def noneStr : List Char := ['N', 'o', 'n', 'e']

/-- `merge_date_and_value(d, v) = '{}{}{}'.format(d, DATE_VALUE_SEPARATOR, v)`
(query_lib.py lines 44-45); the value argument is taken already in its
Python string form. -/
def merge_date_and_value (d v : List Char) : List Char :=
  d ++ sepChars ++ v

/-- Strict lexicographic order on code-point sequences: the comparison used
by Python `<` on `str` and Spark `F.min`/`F.max` on string columns. -/
def strLt : List Char → List Char → Bool
  | [], [] => false
  | [], _ :: _ => true
  | _ :: _, [] => false
  | a :: as, b :: bs =>
    if a.toNat < b.toNat then true
    else if b.toNat < a.toNat then false
    else strLt as bs

/-- Binary `min` on strings, as computed by the engine's `min` aggregate. -/
def minS (a b : List Char) : List Char := if strLt b a then b else a

/-- Binary `max` on strings, as computed by the engine's `max` aggregate. -/
def maxS (a b : List Char) : List Char := if strLt a b then b else a

/-- `min` of a string column over a group (nonempty list of cell values). -/
def minListS : List (List Char) → List Char
  | [] => []
  | x :: xs => xs.foldl minS x

/-- `max` of a string column over a group. -/
def maxListS : List (List Char) → List Char
  | [] => []
  | x :: xs => xs.foldl maxS x

/-- Does the separator occur (as a contiguous substring) in `s`? -/
def containsSep : List Char → Bool
  | [] => false
  | c :: rest => sepChars.isPrefixOf (c :: rest) || containsSep rest

/-- Worker for `splitOnSep`: Python's `s.split('_SeP_')` scanning left to
right, `acc` holding the (reversed) current chunk. -/
def splitGo : List Char → List Char → List (List Char)
  | [], acc => [acc.reverse]
  | c :: rest, acc =>
    if sepChars.isPrefixOf (c :: rest) then
      acc.reverse :: splitGo ((c :: rest).drop sepChars.length) []
    else
      splitGo rest (c :: acc)
termination_by l _ => l.length
decreasing_by
  · simp [sepChars]
    omega
  · simp

/-- Python `s.split('_SeP_')` (and pandas `str.split(sep, expand=True)`). -/
def splitOnSep (s : List Char) : List (List Char) := splitGo s []

/-- Taking column `[1]` of the expanded split: the decode used at
query_lib.py lines 389-396 to recover the value half of a date-value key. -/
def decodeSecond (s : List Char) : List Char := (splitOnSep s).getD 1 []

/-! ## Lemmas about the lexicographic order -/

theorem strLt_asymm : ∀ a b : List Char, strLt a b = true → strLt b a = false
  | [], [], h => by simp [strLt] at h
  | [], _ :: _, _ => by simp [strLt]
  | _ :: _, [], h => by simp [strLt] at h
  | a :: as, b :: bs, h => by
    simp only [strLt] at h ⊢
    by_cases h1 : a.toNat < b.toNat
    · have h2 : ¬ b.toNat < a.toNat := by omega
      simp [h1, h2]
    · by_cases h2 : b.toNat < a.toNat
      · simp [h1, h2] at h
      · simp only [h1, h2, if_neg, if_false] at h ⊢
        simp [strLt_asymm as bs h]

theorem strLt_antisymm : ∀ a b : List Char,
    strLt a b = false → strLt b a = false → a = b
  | [], [], _, _ => rfl
  | [], _ :: _, h, _ => by simp [strLt] at h
  | _ :: _, [], _, h => by simp [strLt] at h
  | a :: as, b :: bs, h, h' => by
    simp only [strLt] at h h'
    by_cases h1 : a.toNat < b.toNat
    · simp [h1] at h
    · by_cases h2 : b.toNat < a.toNat
      · simp [h2] at h'
      · simp only [h1, h2, if_neg, if_false] at h h'
        have hval : a = b := by
          have hn : a.toNat = b.toNat := by omega
          exact Char.eq_of_val_eq (UInt32.eq_of_toBitVec_eq (BitVec.toNat_injective hn))
        rw [hval, strLt_antisymm as bs h h']

theorem strLt_append : ∀ a b : List Char, a.length = b.length →
    strLt a b = true → ∀ s t : List Char, strLt (a ++ s) (b ++ t) = true
  | [], [], _, h, _, _ => by simp [strLt] at h
  | [], _ :: _, hlen, _, _, _ => by simp at hlen
  | _ :: _, [], hlen, _, _, _ => by simp at hlen
  | a :: as, b :: bs, hlen, h, s, t => by
    simp only [strLt] at h
    simp only [List.cons_append, strLt]
    by_cases h1 : a.toNat < b.toNat
    · simp [h1]
    · by_cases h2 : b.toNat < a.toNat
      · simp [h1, h2] at h
      · simp only [h1, h2, if_neg, if_false] at h ⊢
        exact strLt_append as bs (by simpa using hlen) h s t

theorem minS_left {a b : List Char} (h : strLt a b = true) : minS a b = a := by
  simp [minS, strLt_asymm a b h]

theorem maxS_right {a b : List Char} (h : strLt a b = true) : maxS a b = b := by
  simp [maxS, h]

theorem minS_comm (a b : List Char) : minS a b = minS b a := by
  unfold minS
  by_cases h1 : strLt b a = true
  · have := strLt_asymm b a h1
    simp [h1, this]
  · by_cases h2 : strLt a b = true
    · have := strLt_asymm a b h2
      simp [h1, h2, this]
    · have := strLt_antisymm a b
        (Bool.eq_false_iff.mpr (by simpa using h2))
        (Bool.eq_false_iff.mpr (by simpa using h1))
      simp [h1, h2, this]

theorem maxS_comm (a b : List Char) : maxS a b = maxS b a := by
  unfold maxS
  by_cases h1 : strLt b a = true
  · have := strLt_asymm b a h1
    simp [h1, this]
  · by_cases h2 : strLt a b = true
    · have := strLt_asymm a b h2
      simp [h1, h2, this]
    · have := strLt_antisymm a b
        (Bool.eq_false_iff.mpr (by simpa using h2))
        (Bool.eq_false_iff.mpr (by simpa using h1))
      simp [h1, h2, this]

/-- A member of a nonempty list realizes its string `min`. -/
theorem minListS_mem : ∀ (x : List Char) (xs : List (List Char)),
    minListS (x :: xs) ∈ x :: xs := by
  intro x xs
  induction xs generalizing x with
  | nil => simp [minListS]
  | cons y ys ih =>
    have h := ih (minS x y)
    simp only [minListS] at h ⊢
    simp only [List.foldl_cons]
    rcases List.mem_cons.mp h with h' | h'
    · rw [h']
      by_cases hlt : strLt y x = true
      · simp [minS, hlt]
      · simp [minS, hlt]
    · exact List.mem_cons_of_mem _ (List.mem_cons_of_mem _ h')

theorem maxListS_mem : ∀ (x : List Char) (xs : List (List Char)),
    maxListS (x :: xs) ∈ x :: xs := by
  intro x xs
  induction xs generalizing x with
  | nil => simp [maxListS]
  | cons y ys ih =>
    have h := ih (maxS x y)
    simp only [maxListS] at h ⊢
    simp only [List.foldl_cons]
    rcases List.mem_cons.mp h with h' | h'
    · rw [h']
      by_cases hlt : strLt x y = true
      · simp [maxS, hlt]
      · simp [maxS, hlt]
    · exact List.mem_cons_of_mem _ (List.mem_cons_of_mem _ h')

/-! ## Lemmas about splitting on the separator -/

theorem sep_isPrefixOf_sep_append (v : List Char) :
    sepChars.isPrefixOf (sepChars ++ v) = true := by
  simp [sepChars, List.isPrefixOf]

theorem sep_not_isPrefixOf_cons {c : Char} (h : c ≠ '_') (xs : List Char) :
    sepChars.isPrefixOf (c :: xs) = false := by
  simp only [sepChars, List.isPrefixOf, Bool.and_eq_false_imp]
  simp [bne, (Ne.symm h)]

theorem containsSep_cons_false {c : Char} {rest : List Char}
    (h : containsSep (c :: rest) = false) :
    sepChars.isPrefixOf (c :: rest) = false ∧ containsSep rest = false := by
  simpa [containsSep, Bool.or_eq_false_iff] using h

theorem splitGo_of_no_sep : ∀ (v acc : List Char), containsSep v = false →
    splitGo v acc = [acc.reverse ++ v]
  | [], acc, _ => by simp [splitGo]
  | c :: rest, acc, h => by
    obtain ⟨h1, h2⟩ := containsSep_cons_false h
    rw [splitGo, if_neg (by simp [h1]), splitGo_of_no_sep rest (c :: acc) h2]
    simp

theorem splitGo_sep_append (v acc : List Char) :
    splitGo (sepChars ++ v) acc = acc.reverse :: splitGo v [] := by
  rw [show sepChars ++ v = '_' :: ('S' :: 'e' :: 'P' :: '_' :: v) from rfl,
      splitGo, if_pos (by simp [sepChars, List.isPrefixOf])]
  rfl

theorem splitGo_merge : ∀ (d acc v : List Char), '_' ∉ d →
    containsSep v = false →
    splitGo (d ++ sepChars ++ v) acc = [acc.reverse ++ d, v]
  | [], acc, v, _, hv => by
    rw [show ([] : List Char) ++ sepChars ++ v = sepChars ++ v by simp,
        splitGo_sep_append v acc, splitGo_of_no_sep v [] hv]
    simp
  | c :: d', acc, v, hd, hv => by
    have hc : c ≠ '_' := fun h => hd (h ▸ List.mem_cons_self c d')
    have hd' : '_' ∉ d' := fun h => hd (List.mem_cons_of_mem c h)
    rw [List.cons_append, List.cons_append, splitGo,
        if_neg (by simp [sep_not_isPrefixOf_cons hc]),
        splitGo_merge d' (c :: acc) v hd' hv]
    simp

/-- Decoding inverts the encoding: splitting `d ++ SEP ++ v` on the separator
and taking the second column yields `v`, provided `d` contains no underscore
(true of ISO-8601 timestamps) and `v` contains no occurrence of the
separator. -/
theorem decodeSecond_merge {d v : List Char} (hd : '_' ∉ d)
    (hv : containsSep v = false) :
    decodeSecond (merge_date_and_value d v) = v := by
  rw [decodeSecond, splitOnSep, merge_date_and_value,
      splitGo_merge d [] v hd hv]
  rfl

/-! ## Data model

FHIR records and the flattened rows produced by `_SparkPatientQuery`.
Numeric observation values (`value.quantity.value`, Python floats) are
modelled as `ℚ`; nullable fields as `Option`.
-/

/-- One element of a `coding` array (`system`, `code`). -/
structure Coding where
  system : Option String := none
  code : String
  deriving DecidableEq, Repr

/-- The `value` field of an Observation: `value.quantity.value` and the
`value.codeableConcept.coding` array. -/
structure OValue where
  quantity : Option ℚ := none
  conceptCoding : List Coding := []
  deriving DecidableEq, Repr

/-- An Observation FHIR resource, restricted to the fields
`_SparkPatientQuery._flatten_obs` reads. -/
structure Observation where
  codeCoding : List Coding
  value : OValue := {}
  dateTime : List Char
  patientId : String
  encounterId : String
  deriving DecidableEq, Repr

/-- One element of an Encounter's `location` array. -/
structure EncLocation where
  locationId : Option String := none
  display : Option String := none
  deriving DecidableEq, Repr

/-- One element of an Encounter's `type` array (`coding.system`,
`coding.code`). -/
structure EncType where
  system : Option String := none
  code : Option String := none
  deriving DecidableEq, Repr

/-- An Encounter FHIR resource, restricted to the fields
`_SparkPatientQuery._flatten_encounter` reads. -/
structure Encounter where
  id : String
  patientId : String
  periodStart : List Char
  periodEnd : List Char
  location : List EncLocation := []
  encTypes : List EncType := []
  deriving DecidableEq, Repr

/-- A Patient FHIR resource, restricted to the fields
`_join_patients_agg_obs` reads. -/
structure Patient where
  id : String
  birthDate : Option String := none
  gender : Option String := none
  deriving DecidableEq, Repr

/-- A row of the flattened observation view built by `_flatten_obs`
(query_lib.py lines 450-491). -/
structure FlatObsRow where
  coding : Coding
  valueCoding : Option Coding
  value : OValue
  patientId : String
  dateTime : List Char
  dateAndValue : List Char
  dateAndValueCode : List Char
  encounterId : String
  deriving DecidableEq, Repr

/-- A row of the flattened encounter view built by `_flatten_encounter`.
The outer `Option` on the location/type fields records whether the column
was materialized at all (the source adds those columns only when the
constraint is active or the caller forces them); the inner `Option` is SQL
null from `explode_outer`. -/
structure FlatEncRow where
  encounterId : String
  encPatientId : String
  periodFirst : List Char
  periodLast : List Char
  locationId : Option (Option String) := none
  locationDisplay : Option (Option String) := none
  encTypeSystem : Option (Option String) := none
  encTypeCode : Option (Option String) := none
  deriving DecidableEq, Repr

/-! ## Python truthiness helpers

The source guards optional constraint fields with bare `if x:`; `None`,
`''`, `[]` and `0.0` are all falsy in Python.
-/

/-- Truthiness of an optional string (`None` and `''` are falsy). -/
def truthyStr : Option String → Bool
  | none => false
  | some s => !s.isEmpty

/-- Truthiness of an optional char-list string. -/
def truthyChars : Option (List Char) → Bool
  | none => false
  | some s => !s.isEmpty

/-- Truthiness of an optional string list (`None` and `[]` are falsy). -/
def truthyList : Option (List String) → Bool
  | none => false
  | some l => !l.isEmpty

/-- Truthiness of an optional number (`None` and `0.0` are falsy). -/
def truthyQ : Option ℚ → Bool
  | none => false
  | some q => q != 0

/-! ## The observation predicate compiler

`_ObsConstraints.sql` and `PatientQuery._all_obs_constraints` build SQL
`WHERE` strings.  We embed the generated condition as a small AST
(`ObsCond`) whose constructors correspond one-to-one to the atomic
comparison strings of the source, with `andJoin`/`orJoin` playing the role
of `' AND '.join` / `' OR '.join`, plus an evaluator over flattened
observation rows.
-/

/-- Conditions occurring in the observation `WHERE` strings. -/
inductive ObsCond where
  /-- the literal string `'TRUE'` -/
  | tt : ObsCond
  /-- the literal string `'FALSE'` -/
  | ff : ObsCond
  /-- `dateTime >= "{t}"` -/
  | dateGe (t : List Char) : ObsCond
  /-- `dateTime <= "{t}"` -/
  | dateLe (t : List Char) : ObsCond
  /-- `coding.code="{c}"` -/
  | codeEq (c : String) : ObsCond
  /-- `coding.code!="{c}"` -/
  | codeNe (c : String) : ObsCond
  /-- `value.codeableConcept.coding IN ({vals})` -/
  | codedIn (vals : List String) : ObsCond
  /-- `value.codeableConcept.system ="{s}"` / `... IS NULL` -/
  | codedSysIs (s : Option String) : ObsCond
  /-- `value.quantity.value >= {q}` -/
  | quantGe (q : ℚ) : ObsCond
  /-- `value.quantity.value <= {q}` -/
  | quantLe (q : ℚ) : ObsCond
  /-- `A AND B` -/
  | and (a b : ObsCond) : ObsCond
  /-- `A OR B` -/
  | or (a b : ObsCond) : ObsCond
  deriving DecidableEq, Repr

/-- `' AND '.join(cl)` over a nonempty condition list. -/
def andJoin : List ObsCond → ObsCond
  | [] => .tt
  | [c] => c
  | c :: rest => .and c (andJoin rest)

/-- `' OR '.join(cl)` over a nonempty condition list. -/
def orJoin : List ObsCond → ObsCond
  | [] => .ff
  | [c] => c
  | c :: rest => .or c (orJoin rest)

/-- Evaluation of an observation condition on a flattened observation row.
The source compares `value.codeableConcept.coding` / `.system` on the
flattened view; after flattening, the exploded element is the `valueCoding`
column, against which the coded-value atoms are evaluated here (SQL
three-valued logic: a comparison with null is falsy in a `WHERE`). -/
def evalObs : ObsCond → FlatObsRow → Bool
  | .tt, _ => true
  | .ff, _ => false
  | .dateGe t, r => !strLt r.dateTime t
  | .dateLe t, r => !strLt t r.dateTime
  | .codeEq c, r => r.coding.code == c
  | .codeNe c, r => r.coding.code != c
  | .codedIn vals, r =>
    match r.valueCoding with
    | some vc => vals.contains vc.code
    | none => false
  | .codedSysIs s, r =>
    match s, r.valueCoding with
    | none, none => true
    | none, some vc => vc.system == none
    | some sys, some vc => vc.system == some sys
    | some _, none => false
  | .quantGe q, r =>
    match r.value.quantity with
    | some v => decide (q ≤ v)
    | none => false
  | .quantLe q, r =>
    match r.value.quantity with
    | some v => decide (v ≤ q)
    | none => false
  | .and a b, r => evalObs a r && evalObs b r
  | .or a b, r => evalObs a r || evalObs b r

/-- The state of a `_ObsConstraints` instance (query_lib.py lines 81-97);
`value_sys` keeps the raw constructor argument, whose truthiness decides
between `="{sys}"` and `IS NULL` for the system comparison. -/
structure ObsConstraints where
  code : String
  values : Option (List String) := none
  value_sys : Option String := none
  min_value : Option ℚ := none
  max_value : Option ℚ := none
  min_time : Option (List Char) := none
  max_time : Option (List Char) := none
  deriving DecidableEq, Repr

/-- `_ObsConstraints.time_constraint` (query_lib.py lines 99-108). -/
def ObsConstraints.time_constraint (min_time max_time : Option (List Char)) :
    ObsCond :=
  if truthyChars min_time = false ∧ truthyChars max_time = false then .tt
  else
    andJoin
      ((if truthyChars min_time then [ObsCond.dateGe (min_time.getD [])] else [])
        ++ (if truthyChars max_time then [ObsCond.dateLe (max_time.getD [])] else []))

/-- `_ObsConstraints.sql` (query_lib.py lines 110-128). -/
def ObsConstraints.sql (c : ObsConstraints) : ObsCond :=
  let cl := [ObsConstraints.time_constraint c.min_time c.max_time,
             ObsCond.codeEq c.code]
  let cl :=
    if truthyList c.values then
      cl ++ [ObsCond.codedIn (c.values.getD []),
             ObsCond.codedSysIs (if truthyStr c.value_sys then c.value_sys else none)]
    else if truthyQ c.min_value || truthyQ c.max_value then
      cl ++ (if truthyQ c.min_value then [ObsCond.quantGe (c.min_value.getD 0)] else [])
         ++ (if truthyQ c.max_value then [ObsCond.quantLe (c.max_value.getD 0)] else [])
    else cl
  andJoin cl

/-! ## Encounter constraints -/

/-- The state of an `_EncounterContraints` instance (query_lib.py
lines 131-142). -/
structure EncounterConstraints where
  location_id : Option (List String) := none
  type_system : Option String := none
  type_code : Option (List String) := none
  deriving DecidableEq, Repr

/-- `_EncounterContraints.has_location` (`self._location_id != None`). -/
def EncounterConstraints.has_location (ec : EncounterConstraints) : Bool :=
  ec.location_id != none

/-- `_EncounterContraints.has_type`. -/
def EncounterConstraints.has_type (ec : EncounterConstraints) : Bool :=
  (ec.type_code != none) || (ec.type_system != none)

/-- The `loc_str` sub-condition of `_EncounterContraints.sql`:
`locationId IN (...)`, or `TRUE` when the constraint is absent. -/
def EncounterConstraints.locCondition (ec : EncounterConstraints)
    (r : FlatEncRow) : Bool :=
  if truthyList ec.location_id then
    match r.locationId with
    | some (some lid) => (ec.location_id.getD []).contains lid
    | _ => false
  else true

/-- The `type_code_str` sub-condition: `encTypeCode IN (...)` or `TRUE`. -/
def EncounterConstraints.typeCodeCondition (ec : EncounterConstraints)
    (r : FlatEncRow) : Bool :=
  if truthyList ec.type_code then
    match r.encTypeCode with
    | some (some tc) => (ec.type_code.getD []).contains tc
    | _ => false
  else true

/-- The `type_sys_str` sub-condition: `encTypeSystem="{sys}"` or `TRUE`. -/
def EncounterConstraints.typeSystemCondition (ec : EncounterConstraints)
    (r : FlatEncRow) : Bool :=
  if truthyStr ec.type_system then
    match r.encTypeSystem with
    | some (some s) => s == ec.type_system.getD ""
    | _ => false
  else true

/-- `_EncounterContraints.sql` (query_lib.py lines 150-162):
`'{} AND {} AND {}'.format(loc_str, type_code_str, type_sys_str)`. -/
def EncounterConstraints.sql (ec : EncounterConstraints)
    (r : FlatEncRow) : Bool :=
  ec.locCondition r && ec.typeCodeCondition r && ec.typeSystemCondition r

/-- Left-to-right, non-overlapping replacement of `pattern` by `repl`,
fueled by the length of the scanned list (each step consumes at least one
character, so the fuel is never exhausted). -/
def replaceAllAux (pattern repl : List Char) : Nat → List Char → List Char
  | _, [] => []
  | 0, l => l
  | fuel + 1, c :: rest =>
    if pattern ≠ [] ∧ pattern.isPrefixOf (c :: rest) then
      repl ++ replaceAllAux pattern repl fuel ((c :: rest).drop pattern.length)
    else
      c :: replaceAllAux pattern repl fuel rest

/-- Spark's `F.regexp_replace(col, pattern, replacement)` as used in the
source: the pattern is a literal base-URL string, every occurrence is
replaced. -/
def regexpReplace (s pattern replacement : String) : String :=
  String.mk (replaceAllAux pattern.toList replacement.toList
    s.toList.length s.toList)

/-! ## PatientQuery: the aggregate root -/

/-- The mutable state of a `PatientQuery` (query_lib.py lines 178-184).
Python's insertion-ordered dict `_code_constraint` is modelled as an
association list with unique keys. -/
structure PatientQuery where
  code_constraint : List (String × ObsConstraints) := []
  enc_constraint : EncounterConstraints := {}
  include_all_codes : Bool := false
  all_codes_min_time : Option (List Char) := none
  all_codes_max_time : Option (List Char) := none
  code_system : Option String := none
  deriving DecidableEq, Repr

/-- `PatientQuery.include_obs_in_value_and_time_range` (lines 186-194).
Python raises `ValueError` on a duplicate code before touching the dict;
the result pairs the (possibly updated) state with the raised message, if
any. -/
def PatientQuery.include_obs_in_value_and_time_range (q : PatientQuery)
    (code : String) (min_val max_val : Option ℚ := none)
    (min_time max_time : Option (List Char) := none) :
    PatientQuery × Option String :=
  if (q.code_constraint.lookup code).isSome then
    (q, some ("Duplicate constraints for code " ++ code))
  else
    ({ q with
        code_constraint := q.code_constraint ++
          [(code, { code := code, value_sys := q.code_system,
                    min_value := min_val, max_value := max_val,
                    min_time := min_time, max_time := max_time })] },
     none)

/-- `PatientQuery.include_obs_values_in_time_range` (lines 196-204). -/
def PatientQuery.include_obs_values_in_time_range (q : PatientQuery)
    (code : String) (values : Option (List String) := none)
    (min_time max_time : Option (List Char) := none) :
    PatientQuery × Option String :=
  if (q.code_constraint.lookup code).isSome then
    (q, some ("Duplicate constraints for code " ++ code))
  else
    ({ q with
        code_constraint := q.code_constraint ++
          [(code, { code := code, values := values,
                    value_sys := q.code_system,
                    min_time := min_time, max_time := max_time })] },
     none)

/-- `PatientQuery.include_all_other_codes` (lines 206-211). -/
def PatientQuery.include_all_other_codes (q : PatientQuery)
    (includeFlag : Bool := true)
    (min_time max_time : Option (List Char) := none) : PatientQuery :=
  { q with include_all_codes := includeFlag,
           all_codes_min_time := min_time,
           all_codes_max_time := max_time }

/-- `PatientQuery.encounter_constraints` (lines 213-228): wholesale
replacement of the encounter constraint. -/
def PatientQuery.encounter_constraints (q : PatientQuery)
    (locationId : Option (List String) := none)
    (typeSystem : Option String := none)
    (typeCode : Option (List String) := none) : PatientQuery :=
  { q with enc_constraint :=
      { location_id := locationId, type_system := typeSystem,
        type_code := typeCode } }

/-- `PatientQuery._all_obs_constraints` (query_lib.py lines 230-244). -/
def PatientQuery.all_obs_constraints (q : PatientQuery) : ObsCond :=
  if q.code_constraint.isEmpty then
    if q.include_all_codes then .tt else .ff
  else
    let constraints := orJoin (q.code_constraint.map fun p => p.2.sql)
    if !q.include_all_codes then constraints
    else
      .or constraints
        (andJoin ((q.code_constraint.map fun p => ObsCond.codeNe p.1) ++
          [ObsConstraints.time_constraint q.all_codes_min_time
            q.all_codes_max_time]))

/-- `PatientQuery.all_constraints_sql` (lines 246-250), evaluated on a
joined (observation, encounter) row pair.  The encounter object is always
truthy in Python, so the encounter side is always its `sql()`. -/
def PatientQuery.all_constraints (q : PatientQuery) (o : FlatObsRow)
    (e : FlatEncRow) : Bool :=
  evalObs q.all_obs_constraints o && q.enc_constraint.sql e

/-! ## The flatten stage -/

/-- Spark `F.explode_outer`: an empty (or null) array yields a single null
element, a nonempty one yields its elements. -/
def explodeOuter : List α → List (Option α)
  | [] => [none]
  | xs => xs.map some

/-- The `sys_str` filter of `_flatten_obs`:
`coding.system="{cs}"` when a code system is configured, otherwise
`coding.system IS NULL`. -/
def sysMatches (code_system : Option String) (s : Option String) : Bool :=
  match code_system with
  | some sys => s == some sys
  | none => s == none

/-- The `value_sys_str` filter of `_flatten_obs`:
`(valueCoding IS NULL OR valueCoding.system = ... / IS NULL)`. -/
def valueSysOk (code_system : Option String) (vc : Option Coding) : Bool :=
  match vc with
  | none => true
  | some c => sysMatches code_system c.system

/-- Python string form of an optional numeric value as seen by the merge
UDF (`str(None) = "None"`). -/
def pyStrQ : Option ℚ → List Char
  | none => noneStr
  | some q => (toString q).toList

/-- Python string form of an optional coded value
(`valueCoding.code`, null when `valueCoding` is null). -/
def pyStrCode : Option Coding → List Char
  | none => noneStr
  | some c => c.code.toList

/-- `_SparkPatientQuery._flatten_obs` (query_lib.py lines 450-491):
strict explode of `code.coding`, system filter, outer explode of
`value.codeableConcept.coding`, value-system filter, and synthesis of the
two sortable date-value keys. -/
def flattenObs (code_system : Option String) (obs : List Observation) :
    List FlatObsRow :=
  obs.flatMap fun o =>
    (o.codeCoding.filter fun c => sysMatches code_system c.system).flatMap
      fun coding =>
        ((explodeOuter o.value.conceptCoding).filter
            (valueSysOk code_system)).map fun vc =>
          { coding := coding
            valueCoding := vc
            value := o.value
            patientId := o.patientId
            dateTime := o.dateTime
            dateAndValue := merge_date_and_value o.dateTime
              (pyStrQ o.value.quantity)
            dateAndValueCode := merge_date_and_value o.dateTime
              (pyStrCode vc)
            encounterId := o.encounterId }

/-- `_SparkPatientQuery._flatten_encounter` (query_lib.py lines 423-448):
location/type columns are added (via `explode_outer`) only when the
corresponding constraint is active or `force_location_type_columns` is
set; the result is filtered by the encounter constraint. -/
def flattenEncounter (ec : EncounterConstraints) (base_encounter_url : String)
    (force_location_type_columns : Bool) (encs : List Encounter) :
    List FlatEncRow :=
  (encs.flatMap fun e =>
    let encounterId := regexpReplace e.id base_encounter_url ""
    let locParts : List (Option (Option String × Option String)) :=
      if ec.has_location || force_location_type_columns then
        (explodeOuter e.location).map fun lf =>
          some ((lf.map EncLocation.locationId).join,
                (lf.map EncLocation.display).join)
      else [none]
    let typeParts : List (Option (Option String × Option String)) :=
      if ec.has_type || force_location_type_columns then
        (explodeOuter e.encTypes).map fun tf =>
          some ((tf.map EncType.system).join, (tf.map EncType.code).join)
      else [none]
    locParts.flatMap fun lp =>
      typeParts.map fun tp =>
        { encounterId := encounterId
          encPatientId := e.patientId
          periodFirst := e.periodStart
          periodLast := e.periodEnd
          locationId := lp.map Prod.fst
          locationDisplay := lp.map Prod.snd
          encTypeSystem := tp.map Prod.fst
          encTypeCode := tp.map Prod.snd }).filter ec.sql

/-! ## The aggregate stage -/

/-- `F.min` over a nullable numeric column: nulls are ignored, the result
is null iff no row has a value. -/
def minOptQ (l : List (Option ℚ)) : Option ℚ :=
  l.foldl
    (fun acc v =>
      match acc, v with
      | none, v => v
      | acc, none => acc
      | some a, some b => some (min a b))
    none

/-- `F.max` over a nullable numeric column. -/
def maxOptQ (l : List (Option ℚ)) : Option ℚ :=
  l.foldl
    (fun acc v =>
      match acc, v with
      | none, v => v
      | acc, none => acc
      | some a, some b => some (max a b))
    none

/-- One output row of `_aggregate_patient_codes`. -/
structure AggRow where
  patientId : String
  coding : Coding
  num_obs : Nat
  min_value : Option ℚ
  max_value : Option ℚ
  min_date : List Char
  max_date : List Char
  min_date_value : List Char
  max_date_value : List Char
  min_date_value_code : List Char
  max_date_value_code : List Char
  deriving DecidableEq, Repr

/-- The aggregates `_aggregate_patient_codes` computes for one
`(patientId, coding)` group (query_lib.py lines 502-512). -/
def aggregateGroup (pid : String) (coding : Coding)
    (rows : List FlatObsRow) : AggRow :=
  { patientId := pid
    coding := coding
    num_obs := rows.length
    min_value := minOptQ (rows.map fun r => r.value.quantity)
    max_value := maxOptQ (rows.map fun r => r.value.quantity)
    min_date := minListS (rows.map fun r => r.dateTime)
    max_date := maxListS (rows.map fun r => r.dateTime)
    min_date_value := minListS (rows.map fun r => r.dateAndValue)
    max_date_value := maxListS (rows.map fun r => r.dateAndValue)
    min_date_value_code := minListS (rows.map fun r => r.dateAndValueCode)
    max_date_value_code := maxListS (rows.map fun r => r.dateAndValueCode) }

/-- `_SparkPatientQuery._aggregate_patient_codes`
(`flat_obs.groupBy(['patientId', 'coding']).agg(...)`): one aggregate row
per distinct `(patientId, coding)` key. -/
def aggregatePatientCodes (rows : List FlatObsRow) : List AggRow :=
  ((rows.map fun r => (r.patientId, r.coding)).dedup).map fun k =>
    aggregateGroup k.1 k.2
      (rows.filter fun r => r.patientId == k.1 && r.coding == k.2)

/-! ## The query facade -/

/-- The inner join
`self._flat_obs.join(flat_enc, flat_enc.encounterId == self._flat_obs.encounterId)`
(query_lib.py lines 374-375). -/
def joinObsEnc (os : List FlatObsRow) (es : List FlatEncRow) :
    List (FlatObsRow × FlatEncRow) :=
  os.flatMap fun o =>
    (es.filter fun e => e.encounterId == o.encounterId).map fun e => (o, e)

/-- One row of the pandas frame returned by `get_patient_obs_view`,
after the `first_value`/`last_value`/`first_value_code`/`last_value_code`
columns have been derived by splitting the date-value keys
(query_lib.py lines 387-402). -/
structure ObsViewRow where
  patientId : String
  birthDate : Option String
  gender : Option String
  code : String
  num_obs : Nat
  min_value : Option ℚ
  max_value : Option ℚ
  min_date : List Char
  max_date : List Char
  first_value : List Char
  last_value : List Char
  first_value_code : List Char
  last_value_code : List Char
  deriving DecidableEq, Repr

/-- `_SparkPatientQuery._join_patients_agg_obs` (lines 514-536) combined
with the split-based extraction of the boundary-value columns performed in
`get_patient_obs_view` (lines 387-402): patients, with the base URL
stripped from their resource ids, are inner-joined against the aggregated
observations. -/
def joinPatientsAggObs (patients : List Patient) (aggObs : List AggRow)
    (base_patient_url : String) : List ObsViewRow :=
  patients.flatMap fun p =>
    let actual_id := regexpReplace p.id base_patient_url ""
    (aggObs.filter fun a => a.patientId == actual_id).map fun a =>
      { patientId := a.patientId
        birthDate := p.birthDate
        gender := p.gender
        code := a.coding.code
        num_obs := a.num_obs
        min_value := a.min_value
        max_value := a.max_value
        min_date := a.min_date
        max_date := a.max_date
        first_value := decodeSecond a.min_date_value
        last_value := decodeSecond a.max_date_value
        first_value_code := decodeSecond a.min_date_value_code
        last_value_code := decodeSecond a.max_date_value_code }

/-- The source collections a `_SparkPatientQuery` reads from Parquet files
(`_make_sure_patient` / `_make_sure_obs` / `_make_sure_encounter`). -/
structure InputData where
  patients : List Patient := []
  observations : List Observation := []
  encounters : List Encounter := []

/-- `_SparkPatientQuery.get_patient_obs_view` (query_lib.py lines 363-402):
flatten observations and encounters (the latter with
`force_location_type_columns=False`), join them on the encounter id,
filter by the combined constraint, aggregate per `(patient, code)`, join
with patients and derive the boundary-value columns. -/
def sparkGetPatientObsView (q : PatientQuery) (data : InputData)
    (base_url : String) : List ObsViewRow :=
  let flat_obs := flattenObs q.code_system data.observations
  let flat_enc := flattenEncounter q.enc_constraint (base_url ++ "Encounter/")
    false data.encounters
  let join_df := (joinObsEnc flat_obs flat_enc).filter fun oe =>
    q.all_constraints oe.1 oe.2
  let agg_obs := aggregatePatientCodes (join_df.map Prod.fst)
  joinPatientsAggObs data.patients agg_obs (base_url ++ "Patient/")

/-! ## Engine selector and backend dispatch -/

/-- `Runner` (query_lib.py lines 52-55). -/
inductive Runner where
  | SPARK : Runner
  | BIG_QUERY : Runner
  deriving DecidableEq, Repr

/-- Errors raised by the library itself. -/
inductive QueryError where
  /-- `NotImplementedError` from the abstract `PatientQuery` methods. -/
  | notImplemented (msg : String) : QueryError
  /-- `ValueError` (duplicate constraints, unsupported engine). -/
  | valueError (msg : String) : QueryError
  deriving DecidableEq, Repr

/-- State of a `_SparkPatientQuery` instance. -/
structure SparkPatientQuery where
  base : PatientQuery
  file_root : String
  deriving DecidableEq, Repr

/-- State of a `_BigQueryPatientQuery` instance (lines 575-591). -/
structure BigQueryPatientQuery where
  base : PatientQuery
  bq_dataset : String
  deriving DecidableEq, Repr

/-- A concrete `PatientQuery` object, as produced by the factory. -/
inductive PatientQueryImpl where
  | spark (s : SparkPatientQuery) : PatientQueryImpl
  | bigQuery (b : BigQueryPatientQuery) : PatientQueryImpl
  deriving DecidableEq, Repr

/-- `patient_query_factory` (query_lib.py lines 58-78). -/
def patient_query_factory (runner : Runner) (data_source : String)
    (code_system : Option String := none) : PatientQueryImpl :=
  match runner with
  | .SPARK => .spark { base := { code_system := code_system },
                       file_root := data_source }
  | .BIG_QUERY => .bigQuery { base := { code_system := code_system },
                              bq_dataset := data_source }

/-- The base-class body of `PatientQuery.get_patient_obs_view`
(query_lib.py line 280): unconditionally raises `NotImplementedError`. -/
def basePatientObsView : Except QueryError (List ObsViewRow) :=
  .error (.notImplemented "This should be implemented by sub-classes!")

/-- Method dispatch for `get_patient_obs_view`: `_SparkPatientQuery`
overrides it (lines 363-402); `_BigQueryPatientQuery` does not override it,
so the call resolves to the abstract base method (line 280). -/
def getPatientObsView (impl : PatientQueryImpl) (data : InputData)
    (base_url : String) : Except QueryError (List ObsViewRow) :=
  match impl with
  | .spark s => .ok (sparkGetPatientObsView s.base data base_url)
  | .bigQuery _ => basePatientObsView

/-! ## Claim C1: round-trip through the sortable keys -/

/-- **C1** (amended).  Encoding two `(timestamp, value)` pairs with
`merge_date_and_value` and decoding the value half of the
minimal/maximal key reproduces the value paired with the earlier/later
timestamp, **provided** the two timestamps have equal length and contain
no underscore (both hold for fixed-width ISO-8601 timestamps) and the
values' string forms contain no occurrence of the separator.  As stated
over arbitrary timestamp strings the claim is false: see the
counterexample, where one timestamp is a proper prefix of the other. -/
theorem c1_key_roundtrip (d1 d2 v1 v2 : List Char)
    (hlen : d1.length = d2.length) (hord : strLt d1 d2 = true)
    (hd1 : '_' ∉ d1) (hd2 : '_' ∉ d2)
    (hv1 : containsSep v1 = false) (hv2 : containsSep v2 = false) :
    decodeSecond (minS (merge_date_and_value d1 v1)
        (merge_date_and_value d2 v2)) = v1 ∧
    decodeSecond (maxS (merge_date_and_value d1 v1)
        (merge_date_and_value d2 v2)) = v2 := by
  have hkey : strLt (merge_date_and_value d1 v1)
      (merge_date_and_value d2 v2) = true := by
    unfold merge_date_and_value
    rw [List.append_assoc, List.append_assoc]
    exact strLt_append d1 d2 hlen hord _ _
  exact ⟨by rw [minS_left hkey]; exact decodeSecond_merge hd1 hv1,
         by rw [maxS_right hkey]; exact decodeSecond_merge hd2 hv2⟩

/-- **C1, counterexample.**  With timestamps `"2020" < "20200"` (the first
a proper prefix of the second) and separator-free values `"1"`, `"2"`,
the minimal key is the one built from the *later* timestamp (because
`'0' < '_'`), so decoding the value half of `min(key)` yields `"2"`, not
the value `"1"` paired with the minimal timestamp. -/
theorem c1_counterexample :
    strLt "2020".toList "20200".toList = true ∧
    containsSep "1".toList = false ∧
    containsSep "2".toList = false ∧
    decodeSecond (minS (merge_date_and_value "2020".toList "1".toList)
        (merge_date_and_value "20200".toList "2".toList)) ≠ "1".toList := by
  refine ⟨by decide, by decide, by decide, ?_⟩
  simp +decide [decodeSecond, splitOnSep, splitGo, sepChars, minS, strLt,
    merge_date_and_value, List.isPrefixOf]

/-- **C1, witness** for the amended theorem at fixed-width ISO dates. -/
theorem c1_witness :
    "2020-01-01".toList.length = "2020-06-01".toList.length ∧
    strLt "2020-01-01".toList "2020-06-01".toList = true ∧
    decodeSecond (minS (merge_date_and_value "2020-01-01".toList "120".toList)
        (merge_date_and_value "2020-06-01".toList "140".toList))
      = "120".toList ∧
    decodeSecond (maxS (merge_date_and_value "2020-01-01".toList "120".toList)
        (merge_date_and_value "2020-06-01".toList "140".toList))
      = "140".toList :=
  ⟨by decide, by decide,
   (c1_key_roundtrip _ _ _ _ (by decide) (by decide) (by decide) (by decide)
      (by decide) (by decide)).1,
   (c1_key_roundtrip _ _ _ _ (by decide) (by decide) (by decide) (by decide)
      (by decide) (by decide)).2⟩

/-! ## Claim C2: two observations per (patient, code) -/

/-- An observation carrying a single code and a numeric value: the input
shape of the two-observation scenario. -/
def simpleObs (c : Coding) (T : List Char) (V : ℚ) (p eid : String) :
    Observation :=
  { codeCoding := [c], value := { quantity := some V }, dateTime := T,
    patientId := p, encounterId := eid }

/-- Aggregating a two-row group is insensitive to row order. -/
theorem aggregateGroup_pair_comm (pid : String) (c : Coding)
    (r1 r2 : FlatObsRow) :
    aggregateGroup pid c [r1, r2] = aggregateGroup pid c [r2, r1] := by
  have hmin : ∀ a b : Option ℚ, minOptQ [a, b] = minOptQ [b, a] := by
    intro a b
    cases a <;> cases b <;> simp [minOptQ, min_comm]
  have hmax : ∀ a b : Option ℚ, maxOptQ [a, b] = maxOptQ [b, a] := by
    intro a b
    cases a <;> cases b <;> simp [maxOptQ, max_comm]
  simp [aggregateGroup, minListS, maxListS, hmin, hmax, minS_comm, maxS_comm]

/-- **C2** (amended).  For a patient/code with exactly two observations at
timestamps `T1 < T2` with numeric values `V1`, `V2`, the aggregated view
has `min_date = T1`, `max_date = T2`, and recovers the string forms of
`V1`/`V2` as `first_value`/`last_value`, independently of ingestion order
— **provided** the two timestamps have equal length and no underscore and
the values' string forms are separator-free.  As stated over arbitrary
timestamps the boundary-value part is false (see the counterexample). -/
theorem c2_two_obs_view (p e1 e2 : String) (c : Coding) (cs : Option String)
    (T1 T2 : List Char) (V1 V2 : ℚ)
    (hsys : sysMatches cs c.system = true)
    (hlen : T1.length = T2.length) (hord : strLt T1 T2 = true)
    (hT1 : '_' ∉ T1) (hT2 : '_' ∉ T2)
    (hv1 : containsSep (toString V1).toList = false)
    (hv2 : containsSep (toString V2).toList = false) :
    aggregatePatientCodes (flattenObs cs
        [simpleObs c T1 V1 p e1, simpleObs c T2 V2 p e2]) =
      aggregatePatientCodes (flattenObs cs
        [simpleObs c T2 V2 p e2, simpleObs c T1 V1 p e1]) ∧
    ∃ a, aggregatePatientCodes (flattenObs cs
        [simpleObs c T1 V1 p e1, simpleObs c T2 V2 p e2]) = [a] ∧
      a.min_date = T1 ∧ a.max_date = T2 ∧
      decodeSecond a.min_date_value = (toString V1).toList ∧
      decodeSecond a.max_date_value = (toString V2).toList := by
  have hflat12 : flattenObs cs [simpleObs c T1 V1 p e1, simpleObs c T2 V2 p e2]
      = [{ coding := c, valueCoding := none,
           value := { quantity := some V1 }, patientId := p, dateTime := T1,
           dateAndValue := merge_date_and_value T1 (pyStrQ (some V1)),
           dateAndValueCode := merge_date_and_value T1 (pyStrCode none),
           encounterId := e1 },
         { coding := c, valueCoding := none,
           value := { quantity := some V2 }, patientId := p, dateTime := T2,
           dateAndValue := merge_date_and_value T2 (pyStrQ (some V2)),
           dateAndValueCode := merge_date_and_value T2 (pyStrCode none),
           encounterId := e2 }] := by
    simp [flattenObs, simpleObs, explodeOuter, valueSysOk, hsys]
  have hflat21 : flattenObs cs [simpleObs c T2 V2 p e2, simpleObs c T1 V1 p e1]
      = [{ coding := c, valueCoding := none,
           value := { quantity := some V2 }, patientId := p, dateTime := T2,
           dateAndValue := merge_date_and_value T2 (pyStrQ (some V2)),
           dateAndValueCode := merge_date_and_value T2 (pyStrCode none),
           encounterId := e2 },
         { coding := c, valueCoding := none,
           value := { quantity := some V1 }, patientId := p, dateTime := T1,
           dateAndValue := merge_date_and_value T1 (pyStrQ (some V1)),
           dateAndValueCode := merge_date_and_value T1 (pyStrCode none),
           encounterId := e1 }] := by
    simp [flattenObs, simpleObs, explodeOuter, valueSysOk, hsys]
  have hded : (([(p, c), (p, c)] : List (String × Coding))).dedup = [(p, c)] := by
    rw [List.dedup_cons_of_mem (by simp)]
    simp
  have hagg12 : ∀ r1 r2 : FlatObsRow, r1.patientId = p → r1.coding = c →
      r2.patientId = p → r2.coding = c →
      aggregatePatientCodes [r1, r2] = [aggregateGroup p c [r1, r2]] := by
    intro r1 r2 hp1 hc1 hp2 hc2
    simp [aggregatePatientCodes, hp1, hc1, hp2, hc2, hded]
  rw [hflat12, hflat21, hagg12 _ _ rfl rfl rfl rfl, hagg12 _ _ rfl rfl rfl rfl]
  have hkey : strLt (merge_date_and_value T1 (pyStrQ (some V1)))
      (merge_date_and_value T2 (pyStrQ (some V2))) = true := by
    unfold merge_date_and_value
    rw [List.append_assoc, List.append_assoc]
    exact strLt_append T1 T2 hlen hord _ _
  refine ⟨by rw [aggregateGroup_pair_comm], ?_⟩
  refine ⟨_, rfl, ?_, ?_, ?_, ?_⟩
  · show minListS [T1, T2] = T1
    simp only [minListS, List.foldl_cons, List.foldl_nil]
    exact minS_left hord
  · show maxListS [T1, T2] = T2
    simp only [maxListS, List.foldl_cons, List.foldl_nil]
    exact maxS_right hord
  · show decodeSecond (minListS [merge_date_and_value T1 (pyStrQ (some V1)),
      merge_date_and_value T2 (pyStrQ (some V2))]) = (toString V1).toList
    simp only [minListS, List.foldl_cons, List.foldl_nil]
    rw [minS_left hkey]
    exact decodeSecond_merge hT1 hv1
  · show decodeSecond (maxListS [merge_date_and_value T1 (pyStrQ (some V1)),
      merge_date_and_value T2 (pyStrQ (some V2))]) = (toString V2).toList
    simp only [maxListS, List.foldl_cons, List.foldl_nil]
    rw [maxS_right hkey]
    exact decodeSecond_merge hT2 hv2

/-- **C2, counterexample.**  FHIR `dateTime` allows variable precision:
with `T1 = "2020" < T2 = "2020-06-01"` and values `120`, `140`, the
aggregated group has `min_date = T1` as claimed, but its minimal
date-value key is the one built from `T2` (because `'-' < '_'`), so
`first_value` decodes to `"140"`, not the string form of `V1 = 120`. -/
theorem c2_counterexample :
    strLt "2020".toList "2020-06-01".toList = true ∧
    (aggregatePatientCodes (flattenObs (some "s")
        [simpleObs ⟨some "s", "8480-6"⟩ "2020".toList 120 "p1" "e1",
         simpleObs ⟨some "s", "8480-6"⟩ "2020-06-01".toList 140 "p1" "e2"])).map
      (fun a => (a.min_date, a.min_date_value)) =
      [("2020".toList, "2020-06-01_SeP_140".toList)] ∧
    decodeSecond "2020-06-01_SeP_140".toList = "140".toList ∧
    "140".toList ≠ (toString (120 : ℚ)).toList := by
  refine ⟨by decide, by decide, ?_, by decide⟩
  simp +decide [decodeSecond, splitOnSep, splitGo, sepChars, List.isPrefixOf]

/-- **C2, witness** for the amended theorem at fixed-width ISO dates. -/
theorem c2_witness :
    strLt "2020-01-01".toList "2020-06-01".toList = true ∧
    (aggregatePatientCodes (flattenObs (some "s")
        [simpleObs ⟨some "s", "8480-6"⟩ "2020-01-01".toList 120 "p1" "e1",
         simpleObs ⟨some "s", "8480-6"⟩ "2020-06-01".toList 140 "p1" "e2"]) =
      aggregatePatientCodes (flattenObs (some "s")
        [simpleObs ⟨some "s", "8480-6"⟩ "2020-06-01".toList 140 "p1" "e2",
         simpleObs ⟨some "s", "8480-6"⟩ "2020-01-01".toList 120 "p1" "e1"]) ∧
     ∃ a, aggregatePatientCodes (flattenObs (some "s")
        [simpleObs ⟨some "s", "8480-6"⟩ "2020-01-01".toList 120 "p1" "e1",
         simpleObs ⟨some "s", "8480-6"⟩ "2020-06-01".toList 140 "p1" "e2"]) = [a] ∧
       a.min_date = "2020-01-01".toList ∧
       a.max_date = "2020-06-01".toList ∧
       decodeSecond a.min_date_value = (toString (120 : ℚ)).toList ∧
       decodeSecond a.max_date_value = (toString (140 : ℚ)).toList) :=
  ⟨by decide,
   c2_two_obs_view "p1" "e1" "e2" ⟨some "s", "8480-6"⟩ (some "s")
     "2020-01-01".toList "2020-06-01".toList 120 140
     (by decide) (by decide) (by decide) (by decide) (by decide)
     (by decide) (by decide)⟩

/-! ## Claim C3: zero registered codes -/

theorem flatMap_nil_fun {α β : Type _} (l : List α) :
    (l.flatMap fun _ => ([] : List β)) = [] := by
  induction l with
  | nil => rfl
  | cons x xs ih => simp [ih]

/-- **C3.**  With zero registered code constraints the compiled observation
predicate is the literal `FALSE` when `include_all_codes` is off — so
`get_patient_obs_view` returns an empty frame for any input data — and the
literal `TRUE` when it is on. -/
theorem c3_no_codes_fail_closed (q : PatientQuery)
    (h : q.code_constraint = []) :
    (q.include_all_codes = false →
      q.all_obs_constraints = ObsCond.ff ∧
      ∀ (data : InputData) (url : String),
        sparkGetPatientObsView q data url = []) ∧
    (q.include_all_codes = true →
      q.all_obs_constraints = ObsCond.tt ∧
      ∀ o : FlatObsRow, evalObs q.all_obs_constraints o = true) := by
  have hempty : q.code_constraint.isEmpty = true := by simp [h]
  constructor
  · intro hoff
    have hff : q.all_obs_constraints = ObsCond.ff := by
      simp [PatientQuery.all_obs_constraints, hempty, hoff]
    refine ⟨hff, fun data url => ?_⟩
    have hfilter : ∀ (l : List (FlatObsRow × FlatEncRow)),
        (l.filter fun oe => q.all_constraints oe.1 oe.2) = [] := by
      intro l
      apply List.filter_eq_nil_iff.mpr
      intro oe _
      simp [PatientQuery.all_constraints, hff, evalObs]
    simp only [sparkGetPatientObsView, hfilter, List.map_nil]
    have hagg : aggregatePatientCodes [] = [] := rfl
    rw [hagg]
    simp only [joinPatientsAggObs, List.filter_nil, List.map_nil]
    exact flatMap_nil_fun data.patients
  · intro hon
    have htt : q.all_obs_constraints = ObsCond.tt := by
      simp [PatientQuery.all_obs_constraints, hempty, hon]
    exact ⟨htt, fun o => by rw [htt]; rfl⟩

/-- **C3, witness**: a fresh `PatientQuery` (no constraints, catch-all
off) compiles to `FALSE` and yields an empty view on nonempty data. -/
theorem c3_witness :
    ({} : PatientQuery).code_constraint = [] ∧
    ({} : PatientQuery).all_obs_constraints = ObsCond.ff ∧
    sparkGetPatientObsView {}
      { patients := [{ id := "uPatient/p1" }],
        observations := [simpleObs ⟨none, "c0"⟩ "2020-01-01".toList 7 "p1" "e1"],
        encounters := [{ id := "uEncounter/e1", patientId := "p1",
                         periodStart := "2020-01-01".toList,
                         periodEnd := "2020-01-02".toList }] } "u" = [] :=
  ⟨rfl, ((c3_no_codes_fail_closed {} rfl).1 rfl).1,
   ((c3_no_codes_fail_closed {} rfl).1 rfl).2 _ "u"⟩

/-! ## Claim C4: shape of the per-code predicate -/

theorem evalObs_and (a b : ObsCond) (r : FlatObsRow) :
    evalObs (.and a b) r = (evalObs a r && evalObs b r) := rfl

theorem bool_shuffle (a b x : Bool) : (a && (b && x)) = (b && a && x) := by
  cases a <;> cases b <;> cases x <;> rfl

/-- **C4.**  The compiled per-code observation predicate is the
conjunction of the code-equality test, the code's time window, and a
value condition which is the coded-value condition when `values` is
present and the numeric-range condition otherwise; and when `values` is
present the numeric bounds are ignored (clearing them leaves the compiled
predicate unchanged). -/
theorem c4_per_code_predicate (c : ObsConstraints) (r : FlatObsRow) :
    evalObs c.sql r =
      (evalObs (ObsCond.codeEq c.code) r &&
       evalObs (ObsConstraints.time_constraint c.min_time c.max_time) r &&
       (if truthyList c.values then
          evalObs (ObsCond.codedIn (c.values.getD [])) r &&
          evalObs (ObsCond.codedSysIs
            (if truthyStr c.value_sys then c.value_sys else none)) r
        else
          (if truthyQ c.min_value then
            evalObs (ObsCond.quantGe (c.min_value.getD 0)) r else true) &&
          (if truthyQ c.max_value then
            evalObs (ObsCond.quantLe (c.max_value.getD 0)) r else true))) ∧
    (truthyList c.values = true →
      c.sql = ObsConstraints.sql
        { c with min_value := none, max_value := none }) := by
  constructor
  · by_cases hv : truthyList c.values = true
    · simp only [ObsConstraints.sql, hv, if_true, andJoin, evalObs_and]
      rw [bool_shuffle]
    · simp only [Bool.not_eq_true] at hv
      by_cases hmin : truthyQ c.min_value = true
      · by_cases hmax : truthyQ c.max_value = true
        · simp only [ObsConstraints.sql, hv, hmin, hmax, Bool.false_eq_true,
            if_false, if_true, Bool.true_or, andJoin, evalObs_and,
            List.append_assoc, List.cons_append, List.nil_append]
          rw [bool_shuffle]
        · simp only [Bool.not_eq_true] at hmax
          simp only [ObsConstraints.sql, hv, hmin, hmax, Bool.false_eq_true,
            if_false, if_true, Bool.true_or, andJoin, evalObs_and,
            List.append_assoc, List.cons_append, List.nil_append,
            List.append_nil, Bool.and_true]
          rw [bool_shuffle]
      · simp only [Bool.not_eq_true] at hmin
        by_cases hmax : truthyQ c.max_value = true
        · simp only [ObsConstraints.sql, hv, hmin, hmax, Bool.false_eq_true,
            if_false, if_true, Bool.false_or, andJoin, evalObs_and,
            List.append_assoc, List.cons_append, List.nil_append,
            Bool.true_and]
          rw [bool_shuffle]
        · simp only [Bool.not_eq_true] at hmax
          simp only [ObsConstraints.sql, hv, hmin, hmax, Bool.false_eq_true,
            if_false, Bool.false_or, andJoin, evalObs_and, Bool.and_true]
          rw [Bool.and_comm]
  · intro hv
    simp only [ObsConstraints.sql, hv, if_true]

/-- A concrete constraint carrying both coded values and numeric bounds. -/
def exCons : ObsConstraints :=
  { code := "c1", values := some ["v1", "v2"], value_sys := some "s",
    min_value := some 1, max_value := some 9 }

/-- A concrete flattened observation row. -/
def exRow : FlatObsRow :=
  { coding := ⟨some "s", "c1"⟩, valueCoding := some ⟨some "s", "v1"⟩,
    value := {}, patientId := "p", dateTime := "2020".toList,
    dateAndValue := [], dateAndValueCode := [], encounterId := "e" }

/-- **C4, witness**: on `exCons` the numeric bounds do not reach the
compiled predicate. -/
theorem c4_witness :
    (evalObs exCons.sql exRow =
      (evalObs (ObsCond.codeEq exCons.code) exRow &&
       evalObs (ObsConstraints.time_constraint exCons.min_time
         exCons.max_time) exRow &&
       (if truthyList exCons.values then
          evalObs (ObsCond.codedIn (exCons.values.getD [])) exRow &&
          evalObs (ObsCond.codedSysIs
            (if truthyStr exCons.value_sys then exCons.value_sys else none))
            exRow
        else
          (if truthyQ exCons.min_value then
            evalObs (ObsCond.quantGe (exCons.min_value.getD 0)) exRow
           else true) &&
          (if truthyQ exCons.max_value then
            evalObs (ObsCond.quantLe (exCons.max_value.getD 0)) exRow
           else true)))) ∧
    exCons.sql = ObsConstraints.sql
      { exCons with min_value := none, max_value := none } :=
  ⟨(c4_per_code_predicate exCons exRow).1,
   (c4_per_code_predicate exCons exRow).2 (by decide)⟩

/-! ## Claim C5: duplicate constraints -/

/-- **C5.**  Calling either constraint-adding operation with a code that
is already registered raises (`ValueError`, "Duplicate constraints for
code ...") and leaves the query state — in particular the stored
constraint for that code — unchanged. -/
theorem c5_duplicate_constraint (q : PatientQuery) (code : String)
    (c : ObsConstraints) (h : q.code_constraint.lookup code = some c)
    (min_val max_val : Option ℚ) (values : Option (List String))
    (min_time max_time : Option (List Char)) :
    (q.include_obs_in_value_and_time_range code min_val max_val
        min_time max_time =
      (q, some ("Duplicate constraints for code " ++ code))) ∧
    (q.include_obs_values_in_time_range code values min_time max_time =
      (q, some ("Duplicate constraints for code " ++ code))) ∧
    (q.include_obs_in_value_and_time_range code min_val max_val
        min_time max_time).1.code_constraint.lookup code = some c ∧
    (q.include_obs_values_in_time_range code values min_time
        max_time).1.code_constraint.lookup code = some c := by
  have hsome : (q.code_constraint.lookup code).isSome := by rw [h]; rfl
  have h1 : q.include_obs_in_value_and_time_range code min_val max_val
      min_time max_time = (q, some ("Duplicate constraints for code " ++ code)) := by
    rw [PatientQuery.include_obs_in_value_and_time_range, if_pos hsome]
  have h2 : q.include_obs_values_in_time_range code values min_time max_time
      = (q, some ("Duplicate constraints for code " ++ code)) := by
    rw [PatientQuery.include_obs_values_in_time_range, if_pos hsome]
  exact ⟨h1, h2, by rw [h1]; exact h, by rw [h2]; exact h⟩

/-- A query that already holds a constraint for code `"c1"`. -/
def exQuery : PatientQuery :=
  { code_constraint := [("c1", { code := "c1" })] }

/-- **C5, witness** at the concrete one-constraint query `exQuery`. -/
theorem c5_witness :
    exQuery.code_constraint.lookup "c1" = some { code := "c1" } ∧
    (exQuery.include_obs_in_value_and_time_range "c1" (some 5) none
        none none =
      (exQuery, some ("Duplicate constraints for code " ++ "c1"))) ∧
    (exQuery.include_obs_values_in_time_range "c1" (some ["x"]) none none =
      (exQuery, some ("Duplicate constraints for code " ++ "c1"))) ∧
    (exQuery.include_obs_in_value_and_time_range "c1" (some 5) none
        none none).1.code_constraint.lookup "c1" = some { code := "c1" } ∧
    (exQuery.include_obs_values_in_time_range "c1" (some ["x"]) none
        none).1.code_constraint.lookup "c1" = some { code := "c1" } :=
  ⟨by decide,
   (c5_duplicate_constraint exQuery "c1" { code := "c1" } (by decide)
     (some 5) none (some ["x"]) none none).1,
   (c5_duplicate_constraint exQuery "c1" { code := "c1" } (by decide)
     (some 5) none (some ["x"]) none none).2.1,
   (c5_duplicate_constraint exQuery "c1" { code := "c1" } (by decide)
     (some 5) none (some ["x"]) none none).2.2.1,
   (c5_duplicate_constraint exQuery "c1" { code := "c1" } (by decide)
     (some 5) none (some ["x"]) none none).2.2.2⟩

/-! ## Claim C6: strict vs outer explosion in observation flattening -/

theorem flatMap_singleton_fun {α β : Type _} (l : List α) (f : α → β) :
    (l.flatMap fun x => [f x]) = l.map f := by
  induction l with
  | nil => rfl
  | cons x xs ih => simp [ih]

/-- **C6.**  The primary code list is exploded strictly — an observation
with zero codes contributes zero flat rows — while the coded-value list is
exploded with outer semantics: an observation with no coded value yields
exactly one flat row per surviving code, each with a null `valueCoding`,
never zero rows. -/
theorem c6_strict_vs_outer_explosion (cs : Option String) (o : Observation) :
    (o.codeCoding = [] → flattenObs cs [o] = []) ∧
    (o.value.conceptCoding = [] →
      (flattenObs cs [o]).length =
        (o.codeCoding.filter fun c => sysMatches cs c.system).length ∧
      ∀ r ∈ flattenObs cs [o], r.valueCoding = none) := by
  constructor
  · intro h
    simp [flattenObs, h]
  · intro hvc
    have hbase : flattenObs cs [o] =
        (o.codeCoding.filter fun c => sysMatches cs c.system).map fun coding =>
          { coding := coding
            valueCoding := none
            value := o.value
            patientId := o.patientId
            dateTime := o.dateTime
            dateAndValue := merge_date_and_value o.dateTime
              (pyStrQ o.value.quantity)
            dateAndValueCode := merge_date_and_value o.dateTime
              (pyStrCode none)
            encounterId := o.encounterId } := by
      rw [show flattenObs cs [o] =
        (o.codeCoding.filter fun c => sysMatches cs c.system).flatMap
          (fun coding =>
            ((explodeOuter o.value.conceptCoding).filter
                (valueSysOk cs)).map fun vc =>
              { coding := coding
                valueCoding := vc
                value := o.value
                patientId := o.patientId
                dateTime := o.dateTime
                dateAndValue := merge_date_and_value o.dateTime
                  (pyStrQ o.value.quantity)
                dateAndValueCode := merge_date_and_value o.dateTime
                  (pyStrCode vc)
                encounterId := o.encounterId }) by simp [flattenObs]]
      rw [hvc]
      exact flatMap_singleton_fun _ _
    refine ⟨by rw [hbase, List.length_map], ?_⟩
    intro r hr
    rw [hbase] at hr
    obtain ⟨c, _, rfl⟩ := List.mem_map.mp hr
    rfl

/-- An observation with zero codes. -/
def exObsNoCode : Observation :=
  { codeCoding := [], dateTime := "2020-01-01".toList, patientId := "p",
    encounterId := "e" }

/-- An observation with one code and no coded value. -/
def exObsNoCoded : Observation :=
  { codeCoding := [⟨none, "c"⟩], dateTime := "2020-01-01".toList,
    patientId := "p", encounterId := "e" }

/-- **C6, witness**: zero codes give zero rows; one code and no coded
value give exactly one row with a null coded-value field. -/
theorem c6_witness :
    exObsNoCode.codeCoding = [] ∧
    flattenObs none [exObsNoCode] = [] ∧
    exObsNoCoded.value.conceptCoding = [] ∧
    (flattenObs none [exObsNoCoded]).length =
      (exObsNoCoded.codeCoding.filter fun c =>
        sysMatches none c.system).length ∧
    (flattenObs none [exObsNoCoded]).length = 1 ∧
    (flattenObs none [exObsNoCoded]).all
      (fun r => r.valueCoding == none) = true :=
  ⟨rfl, (c6_strict_vs_outer_explosion none exObsNoCode).1 rfl, rfl,
   ((c6_strict_vs_outer_explosion none exObsNoCoded).2 rfl).1,
   by decide, by decide⟩

/-! ## Claim C7: encounter location columns and row multiplication -/

theorem joinObsEnc_singleton (os : List FlatObsRow) (r : FlatEncRow) :
    (joinObsEnc os [r]).length =
      (os.filter fun o => r.encounterId == o.encounterId).length := by
  induction os with
  | nil => rfl
  | cons o os ih =>
    simp only [joinObsEnc, List.flatMap_cons, List.length_append,
      List.length_map, List.filter_cons, List.filter_nil] at ih ⊢
    by_cases h : r.encounterId == o.encounterId
    · simp only [h, if_true, List.length_cons, List.length_nil, ih]
      omega
    · simp only [Bool.not_eq_true] at h
      simp only [h, Bool.false_eq_true, if_false, List.length_nil, ih]
      omega

/-- **C7.**  An encounter with three locations (and no types): with no
encounter constraints and `force_location_type_columns = False` (as in
`get_patient_obs_view`), flattening yields exactly one row — so the
encounter contributes to the observation-view join once per matching
observation row, not three times; with `force_location_type_columns =
True` (encounter view), the same encounter is exploded into three rows. -/
theorem c7_encounter_location_rows (e : Encounter) (url : String)
    (os : List FlatObsRow)
    (hloc : e.location.length = 3) (htyp : e.encTypes = []) :
    (flattenEncounter {} url false [e]).length = 1 ∧
    (flattenEncounter {} url false [e]).all
      (fun r => r.locationId == none && r.locationDisplay == none) = true ∧
    (joinObsEnc os (flattenEncounter {} url false [e])).length =
      (os.filter fun o => (regexpReplace e.id url "") == o.encounterId).length ∧
    (flattenEncounter {} url true [e]).length = 3 := by
  have hec : ∀ r : FlatEncRow, EncounterConstraints.sql {} r = true := by
    intro r
    simp [EncounterConstraints.sql, EncounterConstraints.locCondition,
      EncounterConstraints.typeCodeCondition,
      EncounterConstraints.typeSystemCondition, truthyList, truthyStr]
  have hflat : flattenEncounter {} url false [e] =
      [{ encounterId := regexpReplace e.id url ""
         encPatientId := e.patientId
         periodFirst := e.periodStart
         periodLast := e.periodEnd }] := by
    simp [flattenEncounter, EncounterConstraints.has_location,
      EncounterConstraints.has_type, hec]
  refine ⟨by rw [hflat]; rfl, by rw [hflat]; rfl, ?_, ?_⟩
  · rw [hflat, joinObsEnc_singleton]
  · obtain ⟨a, b, c, habc⟩ := List.length_eq_three.mp hloc
    simp [flattenEncounter, EncounterConstraints.has_location,
      EncounterConstraints.has_type, hec, habc, htyp, explodeOuter]

/-- An encounter with three locations and no types. -/
def exEnc3Loc : Encounter :=
  { id := "uEncounter/e1", patientId := "p1",
    periodStart := "2020-01-01".toList, periodEnd := "2020-01-02".toList,
    location := [{ locationId := some "l1" }, { locationId := some "l2" },
                 { locationId := some "l3" }] }

/-- A flattened observation row referencing encounter `e1`. -/
def exObsRowE1 : FlatObsRow :=
  { coding := ⟨none, "c"⟩, valueCoding := none, value := {},
    patientId := "p1", dateTime := "2020-01-01".toList,
    dateAndValue := [], dateAndValueCode := [], encounterId := "e1" }

/-- **C7, witness** on a concrete three-location encounter. -/
theorem c7_witness :
    exEnc3Loc.location.length = 3 ∧
    (flattenEncounter {} "uEncounter/" false [exEnc3Loc]).length = 1 ∧
    (joinObsEnc [exObsRowE1]
        (flattenEncounter {} "uEncounter/" false [exEnc3Loc])).length =
      ([exObsRowE1].filter fun o =>
        (regexpReplace exEnc3Loc.id "uEncounter/" "") == o.encounterId).length ∧
    (joinObsEnc [exObsRowE1]
        (flattenEncounter {} "uEncounter/" false [exEnc3Loc])).length = 1 ∧
    (flattenEncounter {} "uEncounter/" true [exEnc3Loc]).length = 3 :=
  ⟨rfl,
   (c7_encounter_location_rows exEnc3Loc "uEncounter/" [exObsRowE1]
     rfl rfl).1,
   (c7_encounter_location_rows exEnc3Loc "uEncounter/" [exObsRowE1]
     rfl rfl).2.2.1,
   by decide,
   (c7_encounter_location_rows exEnc3Loc "uEncounter/" [exObsRowE1]
     rfl rfl).2.2.2⟩

/-! ## Claim C8: absent filters compile to TRUE -/

/-- **C8.**  The encounter predicate is the conjunction of the location,
type-code and type-system sub-conditions, each of which is vacuously true
whenever its constraint is absent; and a time window with neither bound
compiles to the literal `TRUE` condition. -/
theorem c8_absent_filters_true (ec : EncounterConstraints) (r : FlatEncRow) :
    ec.sql r = (ec.locCondition r && ec.typeCodeCondition r &&
      ec.typeSystemCondition r) ∧
    (truthyList ec.location_id = false → ec.locCondition r = true) ∧
    (truthyList ec.type_code = false → ec.typeCodeCondition r = true) ∧
    (truthyStr ec.type_system = false → ec.typeSystemCondition r = true) ∧
    (∀ mn mx : Option (List Char), truthyChars mn = false →
      truthyChars mx = false →
      ObsConstraints.time_constraint mn mx = ObsCond.tt) := by
  refine ⟨rfl, ?_, ?_, ?_, ?_⟩
  · intro h
    simp [EncounterConstraints.locCondition, h]
  · intro h
    simp [EncounterConstraints.typeCodeCondition, h]
  · intro h
    simp [EncounterConstraints.typeSystemCondition, h]
  · intro mn mx h1 h2
    simp [ObsConstraints.time_constraint, h1, h2]

/-- A concrete flattened encounter row. -/
def exEncRow : FlatEncRow :=
  { encounterId := "e1", encPatientId := "p1",
    periodFirst := "2020-01-01".toList, periodLast := "2020-01-02".toList }

/-- **C8, witness**: with all constraints absent every sub-condition is
true and the empty time window compiles to `TRUE`. -/
theorem c8_witness :
    ({} : EncounterConstraints).sql exEncRow =
      (({} : EncounterConstraints).locCondition exEncRow &&
       ({} : EncounterConstraints).typeCodeCondition exEncRow &&
       ({} : EncounterConstraints).typeSystemCondition exEncRow) ∧
    ({} : EncounterConstraints).locCondition exEncRow = true ∧
    ({} : EncounterConstraints).typeCodeCondition exEncRow = true ∧
    ({} : EncounterConstraints).typeSystemCondition exEncRow = true ∧
    ObsConstraints.time_constraint none none = ObsCond.tt :=
  ⟨(c8_absent_filters_true {} exEncRow).1,
   (c8_absent_filters_true {} exEncRow).2.1 rfl,
   (c8_absent_filters_true {} exEncRow).2.2.1 rfl,
   (c8_absent_filters_true {} exEncRow).2.2.2.1 rfl,
   (c8_absent_filters_true {} exEncRow).2.2.2.2 none none rfl rfl⟩

/-! ## Claim C9: BigQuery backend lacks the observation view -/

/-- **C9.**  For every data source and code system, the object the factory
returns for the `BIG_QUERY` runner does not override
`get_patient_obs_view`, so invoking it — on any input data and base URL —
resolves to the abstract base method and raises `NotImplementedError`. -/
theorem c9_bigquery_obs_view_not_implemented (data_source : String)
    (code_system : Option String) (data : InputData) (base_url : String) :
    getPatientObsView (patient_query_factory Runner.BIG_QUERY data_source
        code_system) data base_url =
      .error (.notImplemented "This should be implemented by sub-classes!") :=
  rfl

/-! ## Claim C10: null numeric values surface as the string "None" -/

theorem minOptQ_all_none : ∀ l : List (Option ℚ),
    (∀ x ∈ l, x = none) → minOptQ l = none := by
  intro l
  unfold minOptQ
  induction l with
  | nil => intro _; rfl
  | cons x xs ih =>
    intro h
    have hx : x = none := h x (by simp)
    subst hx
    simp only [List.foldl_cons]
    exact ih fun y hy => h y (by simp [hy])

theorem maxOptQ_all_none : ∀ l : List (Option ℚ),
    (∀ x ∈ l, x = none) → maxOptQ l = none := by
  intro l
  unfold maxOptQ
  induction l with
  | nil => intro _; rfl
  | cons x xs ih =>
    intro h
    have hx : x = none := h x (by simp)
    subst hx
    simp only [List.foldl_cons]
    exact ih fun y hy => h y (by simp [hy])

/-- **C10.**  A flattened observation whose numeric quantity is null gets
the synthesized key `timestamp ++ SEP ++ "None"`; consequently a
`(patient, code)` group in which no row has a numeric value aggregates to
`min_value = max_value = null` while `first_value` and `last_value` decode
to the literal string `"None"` (dates assumed underscore-free, as ISO-8601
dates are). -/
theorem c10_none_value_string (cs : Option String)
    (data : List Observation) (pid : String) (coding : Coding) :
    (∀ r ∈ flattenObs cs data, r.value.quantity = none →
      r.dateAndValue = merge_date_and_value r.dateTime noneStr) ∧
    (∀ rows : List FlatObsRow, rows ≠ [] →
      (∀ r ∈ rows, r.value.quantity = none) →
      (∀ r ∈ rows, '_' ∉ r.dateTime) →
      (∀ r ∈ rows, r.dateAndValue =
        merge_date_and_value r.dateTime noneStr) →
      (aggregateGroup pid coding rows).min_value = none ∧
      (aggregateGroup pid coding rows).max_value = none ∧
      decodeSecond (aggregateGroup pid coding rows).min_date_value =
        noneStr ∧
      decodeSecond (aggregateGroup pid coding rows).max_date_value =
        noneStr) := by
  constructor
  · intro r hr hq
    simp only [flattenObs, List.mem_flatMap, List.mem_map,
      List.mem_filter] at hr
    obtain ⟨o, _, c, _, vc, _, rfl⟩ := hr
    simp only at hq ⊢
    rw [hq]
    rfl
  · intro rows hne hq hud hshape
    refine ⟨minOptQ_all_none _ ?_, maxOptQ_all_none _ ?_, ?_, ?_⟩
    · intro x hx
      obtain ⟨r, hr, rfl⟩ := List.mem_map.mp hx
      exact hq r hr
    · intro x hx
      obtain ⟨r, hr, rfl⟩ := List.mem_map.mp hx
      exact hq r hr
    · obtain ⟨r0, rest, rfl⟩ : ∃ r0 rest, rows = r0 :: rest := by
        cases rows with
        | nil => exact absurd rfl hne
        | cons a l => exact ⟨a, l, rfl⟩
      have hmem : minListS ((r0 :: rest).map fun r => r.dateAndValue) ∈
          (r0 :: rest).map fun r => r.dateAndValue := by
        rw [List.map_cons]
        exact minListS_mem _ _
      obtain ⟨r, hr, hkey⟩ := List.mem_map.mp hmem
      show decodeSecond (minListS ((r0 :: rest).map
        fun r => r.dateAndValue)) = noneStr
      rw [← hkey, hshape r hr]
      exact decodeSecond_merge (hud r hr) (by decide)
    · obtain ⟨r0, rest, rfl⟩ : ∃ r0 rest, rows = r0 :: rest := by
        cases rows with
        | nil => exact absurd rfl hne
        | cons a l => exact ⟨a, l, rfl⟩
      have hmem : maxListS ((r0 :: rest).map fun r => r.dateAndValue) ∈
          (r0 :: rest).map fun r => r.dateAndValue := by
        rw [List.map_cons]
        exact maxListS_mem _ _
      obtain ⟨r, hr, hkey⟩ := List.mem_map.mp hmem
      show decodeSecond (maxListS ((r0 :: rest).map
        fun r => r.dateAndValue)) = noneStr
      rw [← hkey, hshape r hr]
      exact decodeSecond_merge (hud r hr) (by decide)

/-- An observation with no numeric value. -/
def exObsNoQuant : Observation :=
  { codeCoding := [⟨none, "c"⟩], value := { quantity := none },
    dateTime := "2020-01-01".toList, patientId := "p", encounterId := "e" }

/-- A second observation with no numeric value. -/
def exObsNoQuant2 : Observation :=
  { codeCoding := [⟨none, "c"⟩], value := { quantity := none },
    dateTime := "2020-06-01".toList, patientId := "p", encounterId := "e" }

/-- **C10, witness**: a two-row all-null group has null numeric extrema
and `"None"` boundary values; the keys really are
`timestamp ++ SEP ++ "None"`. -/
theorem c10_witness :
    (flattenObs none [exObsNoQuant, exObsNoQuant2]).all
      (fun r => r.dateAndValue ==
        r.dateTime ++ sepChars ++ noneStr) = true ∧
    (aggregateGroup "p" ⟨none, "c"⟩
      (flattenObs none [exObsNoQuant, exObsNoQuant2])).min_value = none ∧
    (aggregateGroup "p" ⟨none, "c"⟩
      (flattenObs none [exObsNoQuant, exObsNoQuant2])).max_value = none ∧
    decodeSecond (aggregateGroup "p" ⟨none, "c"⟩
      (flattenObs none [exObsNoQuant, exObsNoQuant2])).min_date_value =
      noneStr ∧
    decodeSecond (aggregateGroup "p" ⟨none, "c"⟩
      (flattenObs none [exObsNoQuant, exObsNoQuant2])).max_date_value =
      noneStr :=
  ⟨by decide,
   ((c10_none_value_string none [exObsNoQuant, exObsNoQuant2] "p"
      ⟨none, "c"⟩).2 (flattenObs none [exObsNoQuant, exObsNoQuant2])
      (by decide) (by decide) (by decide) (by decide)).1,
   ((c10_none_value_string none [exObsNoQuant, exObsNoQuant2] "p"
      ⟨none, "c"⟩).2 (flattenObs none [exObsNoQuant, exObsNoQuant2])
      (by decide) (by decide) (by decide) (by decide)).2.1,
   ((c10_none_value_string none [exObsNoQuant, exObsNoQuant2] "p"
      ⟨none, "c"⟩).2 (flattenObs none [exObsNoQuant, exObsNoQuant2])
      (by decide) (by decide) (by decide) (by decide)).2.2.1,
   ((c10_none_value_string none [exObsNoQuant, exObsNoQuant2] "p"
      ⟨none, "c"⟩).2 (flattenObs none [exObsNoQuant, exObsNoQuant2])
      (by decide) (by decide) (by decide) (by decide)).2.2.2⟩

end QueryLib
